import Mathlib

/-!
Verification of the career-tracker backend (src/backend/server.js) and the
client view derivation (the React App component), as a shallow embedding.

Modelling conventions:
* A JavaScript value is modelled by JVal (numbers as Int: every number the
  program manipulates is an integer timestamp, an id, or a date key).
* A JavaScript object is an association list of string keys; field access,
  field update and object spread are modelled by getF, setF and spreadInto.
  Spread after an initial object (as in the literal with id first and the
  request body spread second) lets the body fields overwrite the id field,
  exactly as in JavaScript.
* Date.parse is a runtime facility, not repository code, so definitions take
  a parameter dparse : String -> Option Int (none models NaN).  The sort
  comparators collapse an unparsable date to key 0; the claims only concern
  records whose dates parse, where this coincides with JavaScript.
* Date.now() is passed in as the parameter now; parseInt on the id route
  parameter is modelled by passing the path id as an Int.
* File system outcomes are passed in as readFails / writeOk flags: readData
  catches a read failure and returns the empty list (as server.js does), a
  write failure makes the route answer 500 and leaves the file unchanged.
* Array.prototype.sort with a consistent comparator returns a stable sorted
  permutation; sortLe (insertion sort, ties keep the earlier element first)
  models that contract.
* String.prototype.trim / toLowerCase / includes are modelled over the
  character lists of the strings (jsTrim, jsLower, jsIncludes).
-/

inductive JVal where
  | jnum (n : Int)
  | jstr (s : String)
  | jbool (b : Bool)
  | jnull
deriving DecidableEq

export JVal (jnum jstr jbool jnull)

/-- A JavaScript object: association list from field name to value. -/
abbrev Obj := List (String × JVal)

/-- Field access; none models undefined. -/
def getF : Obj → String → Option JVal
  | [], _ => none
  | p :: rest, k => if p.1 = k then some p.2 else getF rest k

/-- Field update: replace in place if the key exists, else append. -/
def setF : Obj → String → JVal → Obj
  | [], k, v => [(k, v)]
  | p :: rest, k, v => if p.1 = k then (k, v) :: rest else p :: setF rest k v

/-- Object spread: the literal with init fields first and body spread after,
so body fields overwrite init fields of the same name. -/
def spreadInto (init : Obj) (body : Obj) : Obj :=
  body.foldl (fun acc kv => setF acc kv.1 kv.2) init

/-- JavaScript truthiness of a field value (none models undefined). -/
def truthy : Option JVal → Bool
  | none => false
  | some (jnum n) => decide (n ≠ 0)
  | some (jstr s) => s != ""
  | some (jbool b) => b
  | some jnull => false

/-- JavaScript string coercion of a value. -/
def jsToStr : JVal → String
  | jstr s => s
  | jnum n => toString n
  | jbool b => if b then "true" else "false"
  | jnull => "null"

/-- Whitespace characters removed by String.prototype.trim (the ASCII ones;
the records in this system never contain the exotic Unicode whitespace). -/
def isJsWhitespace (c : Char) : Bool :=
  c == ' ' || c == '\t' || c == '\n' || c == '\r'

/-- Model of String.prototype.trim. -/
def jsTrim (s : String) : String :=
  ⟨((s.data.dropWhile isJsWhitespace).reverse.dropWhile isJsWhitespace).reverse⟩

/-- Model of String.prototype.toLowerCase (ASCII case folding). -/
def jsLower (s : String) : String :=
  ⟨s.data.map Char.toLower⟩

/-- Substring occurrence over character lists. -/
def containsSub (needle : List Char) : List Char → Bool
  | [] => needle.isPrefixOf []
  | h :: t => needle.isPrefixOf (h :: t) || containsSub needle t

/-- Model of s.includes(sub) for strings. -/
def jsIncludes (s sub : String) : Bool :=
  containsSub sub.data s.data

/-- Stable insertion of an element into a sorted list: on a tie the inserted
element goes first, matching stable Array.prototype.sort with the inserted
element originally earlier. -/
def insertLe (le : Obj → Obj → Bool) (a : Obj) : List Obj → List Obj
  | [] => [a]
  | b :: bs => if le a b then a :: b :: bs else b :: insertLe le a bs

/-- Stable sort modelling Array.prototype.sort with a consistent comparator. -/
def sortLe (le : Obj → Obj → Bool) : List Obj → List Obj
  | [] => []
  | a :: as => insertLe le a (sortLe le as)

/-- The valid statuses, as in server.js validateApplication. -/
def validStatuses : List String := ["Applied", "Interview", "Offer", "Rejected"]

/-- typeof data.f !== a string. -/
def strNotString : Option JVal → Bool
  | some (jstr _) => false
  | _ => true

/-- data.f.trim() === the empty string (only reached on string values). -/
def trimEmpty : Option JVal → Bool
  | some (jstr s) => jsTrim s == ""
  | _ => false

/-- isNaN(Date.parse(data.date)) under the ambient parser dparse. -/
def dateUnparsable (dparse : String → Option Int) : Option JVal → Bool
  | some v => (dparse (jsToStr v)).isNone
  | none => true

/-- validStatuses.includes(data.status), with === semantics. -/
def statusIncludes : Option JVal → Bool
  | some (jstr s) => validStatuses.contains s
  | _ => false

/-- Condition of the company error branch in validateApplication:
not data.company, or not a string, or blank after trim. -/
def companyInvalid (data : Obj) : Bool :=
  !truthy (getF data "company") || strNotString (getF data "company")
    || trimEmpty (getF data "company")

/-- Condition of the role error branch in validateApplication. -/
def roleInvalid (data : Obj) : Bool :=
  !truthy (getF data "role") || strNotString (getF data "role")
    || trimEmpty (getF data "role")

/-- Condition of the date error branch in validateApplication. -/
def dateInvalid (dparse : String → Option Int) (data : Obj) : Bool :=
  !truthy (getF data "date") || dateUnparsable dparse (getF data "date")

/-- Condition of the status error branch in validateApplication. -/
def statusInvalid (data : Obj) : Bool :=
  !truthy (getF data "status") || !statusIncludes (getF data "status")

structure Validation where
  isValid : Bool
  errors : List String
deriving DecidableEq

/-- Embedding of validateApplication from server.js: the four conditions are
checked in order, every failing one pushes its message, and isValid is
whether the collected error list is empty. -/
def validateApplication (dparse : String → Option Int) (data : Obj) : Validation :=
  let errors : List String := []
  let errors := if companyInvalid data then errors ++ ["Company name is required"] else errors
  let errors := if roleInvalid data then errors ++ ["Role is required"] else errors
  let errors := if dateInvalid dparse data then errors ++ ["Valid date is required"] else errors
  let errors := if statusInvalid data then
    errors ++ ["Status must be one of: Applied, Interview, Offer, Rejected"] else errors
  { isValid := errors.isEmpty, errors := errors }

/-- Embedding of readData: a failed read is caught and yields the empty
array, it does not propagate. -/
def readData (readFails : Bool) (fileData : List Obj) : List Obj :=
  if readFails then [] else fileData

/-- Numeric date key of a record: new Date(a.date) as milliseconds under the
ambient parser; an unparsable date (NaN in JavaScript) is collapsed to 0. -/
def dKeyD (dparse : String → Option Int) (a : Obj) : Int :=
  match getF a "date" with
  | some v => (dparse (jsToStr v)).getD 0
  | none => 0

/-- Predicate of the id comparison a.id === parseInt(req.params.id). -/
def matchesId (pathId : Int) (a : Obj) : Bool :=
  decide (getF a "id" = some (jnum pathId))

/-- The comparator callback of the List route sort: ascending by date when
the sort query equals asc, otherwise descending. -/
def dateCmp (dparse : String → Option Int) (s : String) (a b : Obj) : Bool :=
  if s == "asc" then decide (dKeyD dparse a ≤ dKeyD dparse b)
  else decide (dKeyD dparse b ≤ dKeyD dparse a)

/-- The comparator callback of the client view sort: descending by date when
the toggle equals desc, otherwise ascending. -/
def viewCmp (dparse : String → Option Int) (sortOrder : String) (a b : Obj) : Bool :=
  if sortOrder == "desc" then decide (dKeyD dparse b ≤ dKeyD dparse a)
  else decide (dKeyD dparse a ≤ dKeyD dparse b)

/-- Common shape of a route outcome: HTTP status, the persisted collection
after the request, and whichever response payload the route produces. -/
structure RouteResult where
  status : Nat
  state : List Obj
  body : List Obj := []
  record : Option Obj := none
  errors : List String := []
deriving DecidableEq

/-- Embedding of GET /api/applications: optional status filter (skipped for
an empty or All value), optional sort by date (only when the sort query
parameter is present and nonempty; asc ascending, anything else descending).
The file is never written by this route. -/
def listApplications (dparse : String → Option Int) (readFails : Bool)
    (fileData : List Obj) (statusQ sortQ : Option String) : RouteResult :=
  let applications := readData readFails fileData
  let applications :=
    match statusQ with
    | some s =>
        if s != "" && s != "All" then
          applications.filter (fun a => decide (getF a "status" = some (jstr s)))
        else applications
    | none => applications
  let applications :=
    match sortQ with
    | some s => if s != "" then sortLe (dateCmp dparse s) applications else applications
    | none => applications
  { status := 200, body := applications, state := fileData }

/-- Embedding of GET /api/applications/:id. -/
def getApplication (readFails : Bool) (fileData : List Obj) (pathId : Int) : RouteResult :=
  let applications := readData readFails fileData
  match applications.find? (matchesId pathId) with
  | none => { status := 404, state := fileData }
  | some a => { status := 200, record := some a, state := fileData }

/-- Embedding of POST /api/applications: validate, then build the new record
as the literal with id := Date.now() first and the body spread after it,
append, write, and answer 201 with the new record. -/
def createApplication (dparse : String → Option Int) (readFails : Bool)
    (fileData : List Obj) (now : Int) (body : Obj) (writeOk : Bool) : RouteResult :=
  let validation := validateApplication dparse body
  if !validation.isValid then
    { status := 400, errors := validation.errors, state := fileData }
  else
    let applications := readData readFails fileData
    let newApp := spreadInto [("id", jnum now)] body
    let applications := applications ++ [newApp]
    if writeOk then { status := 201, record := some newApp, state := applications }
    else { status := 500, state := fileData }

/-- Embedding of PUT /api/applications/:id: validate, find the index of the
record whose id matches the path id, 404 when absent, otherwise replace that
slot with the literal having id := path id first and the body spread after
it, write, and answer with the replaced record. -/
def updateApplication (dparse : String → Option Int) (readFails : Bool)
    (fileData : List Obj) (pathId : Int) (body : Obj) (writeOk : Bool) : RouteResult :=
  let validation := validateApplication dparse body
  if !validation.isValid then
    { status := 400, errors := validation.errors, state := fileData }
  else
    let applications := readData readFails fileData
    match applications.findIdx? (matchesId pathId) with
    | none => { status := 404, state := fileData }
    | some index =>
        let updated := spreadInto [("id", jnum pathId)] body
        let applications := applications.set index updated
        if writeOk then { status := 200, record := some updated, state := applications }
        else { status := 500, state := fileData }

structure Stats where
  total : Nat
  applied : Nat
  interview : Nat
  offer : Nat
  rejected : Nat
  successRate : String
deriving DecidableEq

/-- Count of records with the given status, as filter-then-length. -/
def statusCount (applications : List Obj) (s : String) : Nat :=
  (applications.filter (fun a => decide (getF a "status" = some (jstr s)))).length

/-- Model of x.toFixed(2) for the exact nonnegative rational p / q, rounding
half up (the double arithmetic of the source agrees on every value this
program can produce). -/
def toFixed2 (p q : Nat) : String :=
  let n := (200 * p + q) / (2 * q)
  toString (n / 100) ++ "." ++ (if n % 100 < 10 then "0" ++ toString (n % 100) else toString (n % 100))

/-- Embedding of the stats object built by GET /api/stats. -/
def statsOf (applications : List Obj) : Stats :=
  { total := applications.length
  , applied := statusCount applications "Applied"
  , interview := statusCount applications "Interview"
  , offer := statusCount applications "Offer"
  , rejected := statusCount applications "Rejected"
  , successRate :=
      if applications.length > 0 then
        toFixed2 (100 * statusCount applications "Offer") applications.length ++ "%"
      else "0%" }

/-- Embedding of GET /api/stats. -/
def getStats (readFails : Bool) (fileData : List Obj) : Nat × Stats :=
  (200, statsOf (readData readFails fileData))

/-- String content of a field, for the client search which calls toLowerCase
on app.company and app.role (always strings for server-produced records). -/
def fieldStr (a : Obj) (k : String) : String :=
  match getF a k with
  | some (jstr s) => s
  | _ => ""

/-- The client search predicate: company or role contains the term,
case-insensitively. -/
def searchHit (a : Obj) (term : String) : Bool :=
  jsIncludes (jsLower (fieldStr a "company")) (jsLower term)
    || jsIncludes (jsLower (fieldStr a "role")) (jsLower term)

/-- Embedding of the client filter-and-sort effect in App: status filter
unless All, search filter unless the term is empty, then sort by date,
descending exactly when the toggle is desc. -/
def derivedView (dparse : String → Option Int) (apps : List Obj)
    (filterStatus searchTerm sortOrder : String) : List Obj :=
  let filtered := apps
  let filtered :=
    if filterStatus != "All" then
      filtered.filter (fun a => decide (getF a "status" = some (jstr filterStatus)))
    else filtered
  let filtered :=
    if searchTerm != "" then filtered.filter (fun a => searchHit a searchTerm)
    else filtered
  sortLe (viewCmp dparse sortOrder) filtered

/-- Spec-side status narrowing of the List route: keep a record when no
status query is given, the value is empty or All, or the status matches. -/
def statusPred (statusQ : Option String) (a : Obj) : Bool :=
  match statusQ with
  | some s => if s != "" && s != "All" then decide (getF a "status" = some (jstr s)) else true
  | none => true

/-- Spec-side predicate of the client view: status filter conjoined with the
case-insensitive search over company and role. -/
def specViewPred (filterStatus searchTerm : String) (a : Obj) : Bool :=
  (filterStatus == "All" || decide (getF a "status" = some (jstr filterStatus)))
    && (searchTerm == "" || searchHit a searchTerm)

/-- Spec-side reading of the company rule: the field is a string that is
nonempty after trimming whitespace. -/
def specCompanyOk (data : Obj) : Prop :=
  ∃ s, getF data "company" = some (jstr s) ∧ jsTrim s ≠ ""

/-- Spec-side reading of the role rule. -/
def specRoleOk (data : Obj) : Prop :=
  ∃ s, getF data "role" = some (jstr s) ∧ jsTrim s ≠ ""

/-- Spec-side reading of the date rule: the field is present, truthy, and
parses under the ambient parser. -/
def specDateOk (dparse : String → Option Int) (data : Obj) : Prop :=
  ∃ v, getF data "date" = some v ∧ truthy (some v) = true ∧ (dparse (jsToStr v)).isSome = true

/-- Spec-side reading of the status rule: the field is one of the four
enumerated strings. -/
def specStatusOk (data : Obj) : Prop :=
  ∃ s, getF data "status" = some (jstr s) ∧ s ∈ validStatuses

/-- A concrete stand-in for Date.parse covering the dates used in the
concrete instances below. -/
def dparse0 : String → Option Int :=
  fun s =>
    if s == "2026-01-01" then some 1
    else if s == "2026-01-02" then some 2
    else if s == "2026-02-01" then some 32
    else none

/-- A stored record with id 1. -/
def rec1 : Obj :=
  [("id", jnum 1), ("company", jstr "Acme"), ("role", jstr "Engineer"),
   ("date", jstr "2026-01-01"), ("status", jstr "Applied")]

/-- A valid update payload that carries its own id field, 2. -/
def body1 : Obj :=
  [("id", jnum 2), ("company", jstr "Acme"), ("role", jstr "Engineer"),
   ("date", jstr "2026-01-02"), ("status", jstr "Interview")]

/-- A stored record whose id is 100. -/
def rec100 : Obj :=
  [("id", jnum 100), ("company", jstr "Globex"), ("role", jstr "Analyst"),
   ("date", jstr "2026-01-01"), ("status", jstr "Applied")]

/-- A valid create payload without an id field. -/
def body2 : Obj :=
  [("company", jstr "Initech"), ("role", jstr "Developer"),
   ("date", jstr "2026-01-02"), ("status", jstr "Applied")]

/-- A record dated 2026-01-01 (the older one). -/
def recOld : Obj :=
  [("id", jnum 10), ("company", jstr "OldCo"), ("role", jstr "Dev"),
   ("date", jstr "2026-01-01"), ("status", jstr "Applied")]

/-- A record dated 2026-01-02 (the newer one). -/
def recNew : Obj :=
  [("id", jnum 11), ("company", jstr "NewCo"), ("role", jstr "Dev"),
   ("date", jstr "2026-01-02"), ("status", jstr "Applied")]

/-- An input whose company is the one-space string: a nonempty string that
is blank after trimming. -/
def dataBlankCompany : Obj :=
  [("company", jstr " "), ("role", jstr "Developer"),
   ("date", jstr "2026-01-01"), ("status", jstr "Applied")]

/-- A create payload with no company field at all. -/
def bodyNoCompany : Obj :=
  [("role", jstr "Developer"), ("date", jstr "2026-01-01"), ("status", jstr "Applied")]

/-- A valid payload carrying an extra field outside the record schema. -/
def bodyExtra : Obj :=
  [("company", jstr "Acme"), ("role", jstr "Engineer"), ("date", jstr "2026-01-01"),
   ("status", jstr "Applied"), ("referral", jstr "friend")]

/-- Five-record collection with exactly one Offer. -/
def fiveRecords : List Obj :=
  [ [("id", jnum 1), ("company", jstr "A"), ("role", jstr "r"), ("date", jstr "2026-01-01"), ("status", jstr "Applied")]
  , [("id", jnum 2), ("company", jstr "B"), ("role", jstr "r"), ("date", jstr "2026-01-01"), ("status", jstr "Applied")]
  , [("id", jnum 3), ("company", jstr "C"), ("role", jstr "r"), ("date", jstr "2026-01-01"), ("status", jstr "Interview")]
  , [("id", jnum 4), ("company", jstr "D"), ("role", jstr "r"), ("date", jstr "2026-01-01"), ("status", jstr "Offer")]
  , [("id", jnum 5), ("company", jstr "E"), ("role", jstr "r"), ("date", jstr "2026-01-01"), ("status", jstr "Rejected")] ]

/-- Lookup misses exactly when no entry carries the key. -/
theorem getF_eq_none_iff (o : Obj) (k : String) :
    getF o k = none ↔ ∀ p ∈ o, p.1 ≠ k := by
  induction o with
  | nil => simp [getF]
  | cons p rest ih =>
      by_cases h : p.1 = k
      · simp [getF, h]
      · simp [getF, h, ih]

/-- Updating a field makes lookup of that field return the new value. -/
theorem getF_setF_self (o : Obj) (k : String) (v : JVal) :
    getF (setF o k v) k = some v := by
  induction o with
  | nil => simp [setF, getF]
  | cons p rest ih =>
      by_cases h : p.1 = k
      · simp [setF, h, getF]
      · simp [setF, h, getF, ih]

/-- Updating one field leaves lookup of any other field unchanged. -/
theorem getF_setF_ne (o : Obj) (k k2 : String) (v : JVal) (h : k ≠ k2) :
    getF (setF o k v) k2 = getF o k2 := by
  induction o with
  | nil => simp [setF, getF, h]
  | cons p rest ih =>
      by_cases hp : p.1 = k
      · simp [setF, hp, getF, h]
      · by_cases hp2 : p.1 = k2
        · simp [setF, hp, getF, hp2, Ne.symm h]
        · simp [setF, hp, getF, hp2, ih]

/-- Spreading an object none of whose keys is k leaves field k unchanged. -/
theorem getF_spreadInto_of_ne (body : Obj) (init : Obj) (k : String)
    (h : ∀ p ∈ body, p.1 ≠ k) :
    getF (spreadInto init body) k = getF init k := by
  induction body generalizing init with
  | nil => rfl
  | cons p rest ih =>
      have hp : p.1 ≠ k := h p (List.mem_cons_self p rest)
      have hrest : ∀ q ∈ rest, q.1 ≠ k := fun q hq => h q (List.mem_cons_of_mem p hq)
      calc getF (spreadInto (setF init p.1 p.2) rest) k
          = getF (setF init p.1 p.2) k := ih (setF init p.1 p.2) hrest
        _ = getF init k := getF_setF_ne init p.1 k p.2 hp

/-- Spreading an object with distinct keys stores each of its fields
verbatim: lookup of a spread key returns exactly the value the body gave. -/
theorem getF_spreadInto_mem (body : Obj) (init : Obj) (k : String) (v : JVal)
    (hnd : (body.map Prod.fst).Nodup) (hkv : (k, v) ∈ body) :
    getF (spreadInto init body) k = some v := by
  induction body generalizing init with
  | nil => cases hkv
  | cons p rest ih =>
      have hnd2 : (rest.map Prod.fst).Nodup := (List.nodup_cons.mp hnd).2
      rcases List.mem_cons.mp hkv with hkv | hkv
      · subst hkv
        have hnotin : ∀ q ∈ rest, q.1 ≠ k := by
          intro q hq
          have := (List.nodup_cons.mp hnd).1
          intro hqk
          exact this (by
            simp only [List.mem_map]
            exact ⟨q, hq, hqk⟩)
        calc getF (spreadInto (setF init k v) rest) k
            = getF (setF init k v) k := getF_spreadInto_of_ne rest (setF init k v) k hnotin
          _ = some v := getF_setF_self init k v
      · exact ih (setF init p.1 p.2) hnd2 hkv

/-- When the body has no id field, the spread record keeps the id that the
literal put first. -/
theorem getF_spreadInto_id (body : Obj) (i : Int)
    (h : getF body "id" = none) :
    getF (spreadInto [("id", jnum i)] body) "id" = some (jnum i) := by
  have hne : ∀ p ∈ body, p.1 ≠ "id" := (getF_eq_none_iff body "id").mp h
  rw [getF_spreadInto_of_ne body _ "id" hne]
  rfl

/-- The collected error list, spelled as the concatenation of the four
independent checks: no check short-circuits any other. -/
theorem validateApplication_errors (dparse : String → Option Int) (data : Obj) :
    (validateApplication dparse data).errors =
      (if companyInvalid data then ["Company name is required"] else [])
      ++ (if roleInvalid data then ["Role is required"] else [])
      ++ (if dateInvalid dparse data then ["Valid date is required"] else [])
      ++ (if statusInvalid data then
            ["Status must be one of: Applied, Interview, Offer, Rejected"] else []) := by
  unfold validateApplication
  cases companyInvalid data <;> cases roleInvalid data <;>
    cases dateInvalid dparse data <;> cases statusInvalid data <;> rfl

/-- isValid is precisely emptiness of the collected error list. -/
theorem validateApplication_isValid_eq (dparse : String → Option Int) (data : Obj) :
    (validateApplication dparse data).isValid =
      (validateApplication dparse data).errors.isEmpty := by
  unfold validateApplication
  cases companyInvalid data <;> cases roleInvalid data <;>
    cases dateInvalid dparse data <;> cases statusInvalid data <;> rfl

/-- The input is valid exactly when all four checks pass. -/
theorem validateApplication_isValid_iff (dparse : String → Option Int) (data : Obj) :
    (validateApplication dparse data).isValid = true ↔
      companyInvalid data = false ∧ roleInvalid data = false ∧
      dateInvalid dparse data = false ∧ statusInvalid data = false := by
  unfold validateApplication
  cases companyInvalid data <;> cases roleInvalid data <;>
    cases dateInvalid dparse data <;> cases statusInvalid data <;> simp

/-- The code check on company is equivalent to the spec-side reading. -/
theorem companyInvalid_iff (data : Obj) :
    companyInvalid data = false ↔ specCompanyOk data := by
  unfold companyInvalid specCompanyOk
  cases hv : getF data "company" with
  | none => simp [truthy, strNotString, trimEmpty]
  | some v =>
      cases v with
      | jnum n => simp [truthy, strNotString, trimEmpty]
      | jstr s =>
          by_cases hs : jsTrim s = ""
          · simp [truthy, strNotString, trimEmpty, hs]
          · have hs0 : s ≠ "" := fun he => hs (by rw [he]; rfl)
            simp [truthy, strNotString, trimEmpty, hs, hs0]
      | jbool b => simp [truthy, strNotString, trimEmpty]
      | jnull => simp [truthy, strNotString, trimEmpty]

/-- The code check on role is equivalent to the spec-side reading. -/
theorem roleInvalid_iff (data : Obj) :
    roleInvalid data = false ↔ specRoleOk data := by
  unfold roleInvalid specRoleOk
  cases hv : getF data "role" with
  | none => simp [truthy, strNotString, trimEmpty]
  | some v =>
      cases v with
      | jnum n => simp [truthy, strNotString, trimEmpty]
      | jstr s =>
          by_cases hs : jsTrim s = ""
          · simp [truthy, strNotString, trimEmpty, hs]
          · have hs0 : s ≠ "" := fun he => hs (by rw [he]; rfl)
            simp [truthy, strNotString, trimEmpty, hs, hs0]
      | jbool b => simp [truthy, strNotString, trimEmpty]
      | jnull => simp [truthy, strNotString, trimEmpty]

/-- The code check on date is equivalent to the spec-side reading. -/
theorem dateInvalid_iff (dparse : String → Option Int) (data : Obj) :
    dateInvalid dparse data = false ↔ specDateOk dparse data := by
  unfold dateInvalid specDateOk
  cases hv : getF data "date" with
  | none => simp [truthy, dateUnparsable]
  | some v =>
      cases htr : truthy (some v) <;> cases hd : dparse (jsToStr v) <;>
        simp [dateUnparsable, htr, hd]

/-- The code check on status is equivalent to the spec-side reading. -/
theorem statusInvalid_iff (data : Obj) :
    statusInvalid data = false ↔ specStatusOk data := by
  unfold statusInvalid specStatusOk
  cases hv : getF data "status" with
  | none => simp [truthy, statusIncludes]
  | some v =>
      cases v with
      | jnum n => simp [truthy, statusIncludes]
      | jstr s =>
          by_cases hs : s ∈ validStatuses
          · have hs0 : s ≠ "" := by
              simp [validStatuses] at hs
              rcases hs with h | h | h | h <;> subst h <;> decide
            simp [truthy, statusIncludes, hs, hs0, List.elem_iff]
          · simp [truthy, statusIncludes, hs, List.elem_iff]
      | jbool b => simp [truthy, statusIncludes]
      | jnull => simp [truthy, statusIncludes]

/-- Inserting permutes to consing. -/
theorem perm_insertLe (le : Obj → Obj → Bool) (a : Obj) (l : List Obj) :
    (insertLe le a l).Perm (a :: l) := by
  induction l with
  | nil => simp [insertLe]
  | cons b bs ih =>
      simp only [insertLe]
      by_cases h : le a b = true
      · simp [h]
      · rw [if_neg h]
        exact ((ih.cons b).trans (List.Perm.swap a b bs))

/-- The stable sort is a permutation of its input. -/
theorem perm_sortLe (le : Obj → Obj → Bool) (l : List Obj) :
    (sortLe le l).Perm l := by
  induction l with
  | nil => simp [sortLe]
  | cons a as ih =>
      exact (perm_insertLe le a (sortLe le as)).trans (ih.cons a)

/-- Membership in an insertion. -/
theorem mem_insertLe (le : Obj → Obj → Bool) (a x : Obj) (l : List Obj) :
    x ∈ insertLe le a l ↔ x = a ∨ x ∈ l := by
  rw [(perm_insertLe le a l).mem_iff]
  simp

/-- Inserting into a list sorted for a transitive total comparator keeps it
sorted. -/
theorem pairwise_insertLe (le : Obj → Obj → Bool)
    (htrans : ∀ a b c, le a b = true → le b c = true → le a c = true)
    (htotal : ∀ a b, (le a b || le b a) = true)
    (a : Obj) (l : List Obj) (h : l.Pairwise (fun x y => le x y = true)) :
    (insertLe le a l).Pairwise (fun x y => le x y = true) := by
  induction l with
  | nil => simp [insertLe]
  | cons b bs ih =>
      rcases List.pairwise_cons.mp h with ⟨hb, hbs⟩
      simp only [insertLe]
      by_cases hab : le a b = true
      · rw [if_pos hab]
        refine List.pairwise_cons.mpr ⟨?_, h⟩
        intro x hx
        rcases List.mem_cons.mp hx with hx | hx
        · exact hx ▸ hab
        · exact htrans a b x hab (hb x hx)
      · rw [if_neg hab]
        have hba : le b a = true := by
          have := htotal a b
          rcases Bool.or_eq_true_iff.mp this with h1 | h1
          · exact absurd h1 hab
          · exact h1
        refine List.pairwise_cons.mpr ⟨?_, ih hbs⟩
        intro x hx
        rcases (mem_insertLe le a x bs).mp hx with hx | hx
        · exact hx ▸ hba
        · exact hb x hx
      
/-- The stable sort yields a list sorted for any transitive total
comparator. -/
theorem pairwise_sortLe (le : Obj → Obj → Bool)
    (htrans : ∀ a b c, le a b = true → le b c = true → le a c = true)
    (htotal : ∀ a b, (le a b || le b a) = true)
    (l : List Obj) :
    (sortLe le l).Pairwise (fun x y => le x y = true) := by
  induction l with
  | nil => simp [sortLe]
  | cons a as ih => exact pairwise_insertLe le htrans htotal a (sortLe le as) ih

/-- Transitivity of both sort comparators, for any fixed direction. -/
theorem dateCmp_trans (dparse : String → Option Int) (s : String) :
    ∀ a b c, dateCmp dparse s a b = true → dateCmp dparse s b c = true →
      dateCmp dparse s a c = true := by
  intro a b c h1 h2
  unfold dateCmp at *
  by_cases hs : (s == "asc") = true <;> simp [hs] at * <;> omega

/-- Totality of the List route comparator. -/
theorem dateCmp_total (dparse : String → Option Int) (s : String) :
    ∀ a b, (dateCmp dparse s a b || dateCmp dparse s b a) = true := by
  intro a b
  unfold dateCmp
  by_cases hs : (s == "asc") = true <;> simp [hs] <;> omega

/-- Transitivity of the client view comparator. -/
theorem viewCmp_trans (dparse : String → Option Int) (s : String) :
    ∀ a b c, viewCmp dparse s a b = true → viewCmp dparse s b c = true →
      viewCmp dparse s a c = true := by
  intro a b c h1 h2
  unfold viewCmp at *
  by_cases hs : (s == "desc") = true <;> simp [hs] at * <;> omega

/-- Totality of the client view comparator. -/
theorem viewCmp_total (dparse : String → Option Int) (s : String) :
    ∀ a b, (viewCmp dparse s a b || viewCmp dparse s b a) = true := by
  intro a b
  unfold viewCmp
  by_cases hs : (s == "desc") = true <;> simp [hs] <;> omega

/-- The List route never touches the file. -/
theorem listApplications_state (dparse : String → Option Int) (readFails : Bool)
    (fileData : List Obj) (statusQ sortQ : Option String) :
    (listApplications dparse readFails fileData statusQ sortQ).state = fileData := by
  unfold listApplications
  rfl

/-- Body of the List route: the status narrowing always happens, the sort
happens only when the sort query is present and nonempty. -/
theorem listApplications_body (dparse : String → Option Int)
    (fileData : List Obj) (statusQ sortQ : Option String) :
    (listApplications dparse false fileData statusQ sortQ).body =
      (match sortQ with
       | none => fileData.filter (statusPred statusQ)
       | some s =>
           if s != "" then sortLe (dateCmp dparse s) (fileData.filter (statusPred statusQ))
           else fileData.filter (statusPred statusQ)) := by
  have hfilter :
      (match statusQ with
       | some s =>
           if s != "" && s != "All" then
             (readData false fileData).filter (fun a => decide (getF a "status" = some (jstr s)))
           else readData false fileData
       | none => readData false fileData) = fileData.filter (statusPred statusQ) := by
    cases statusQ with
    | none =>
        simp only [readData, if_neg Bool.false_ne_true]
        exact (List.filter_eq_self.mpr (fun a _ => rfl)).symm
    | some s =>
        by_cases hc : (s != "" && s != "All") = true
        · simp only [readData, hc, if_true, if_neg Bool.false_ne_true]
          exact List.filter_congr (fun a _ => by simp [statusPred, hc])
        · simp only [readData, hc, if_neg Bool.false_ne_true, Bool.false_eq_true, if_false]
          exact (List.filter_eq_self.mpr (fun a _ => by simp [statusPred, hc])).symm
  unfold listApplications
  cases sortQ with
  | none => simpa using hfilter
  | some s =>
      by_cases hc : (s != "") = true
      · simp only [hc, if_true]
        rw [hfilter]
      · simp only [hc]
        rw [if_neg (by simp_all), if_neg (by simp_all)]
        simpa using hfilter

/-- C1 counterexample: at a concrete state holding the record with id 1, a
valid update payload that itself carries id 2 passes validation, the route
answers 200, and both the returned and the stored record carry id 2, not
the path id 1: the body spread overrides the path id. -/
theorem update_payload_id_overrides :
    (validateApplication dparse0 body1).isValid = true ∧
    getF rec1 "id" = some (jnum 1) ∧
    getF body1 "id" = some (jnum 2) ∧
    (updateApplication dparse0 false [rec1] 1 body1 true).status = 200 ∧
    getF ((updateApplication dparse0 false [rec1] 1 body1 true).record.getD []) "id"
      = some (jnum 2) ∧
    getF ((updateApplication dparse0 false [rec1] 1 body1 true).state.headD []) "id"
      = some (jnum 2) := by
  decide

/-- C1 (amended): for a valid payload that does not itself carry an id
field, Update replaces the matched slot wholesale with the path id first
and the payload spread after it, so the stored and returned record keeps
the path id; when no record matches the path id the route answers 404 and
the persisted collection is unchanged. -/
theorem update_replaces_record (dparse : String → Option Int) (fileData : List Obj)
    (pathId : Int) (body : Obj)
    (hv : (validateApplication dparse body).isValid = true)
    (hid : getF body "id" = none) :
    (∀ i, fileData.findIdx? (matchesId pathId) = some i →
      (updateApplication dparse false fileData pathId body true).status = 200 ∧
      (updateApplication dparse false fileData pathId body true).record
        = some (spreadInto [("id", jnum pathId)] body) ∧
      getF (spreadInto [("id", jnum pathId)] body) "id" = some (jnum pathId) ∧
      (updateApplication dparse false fileData pathId body true).state
        = fileData.set i (spreadInto [("id", jnum pathId)] body)) ∧
    (fileData.findIdx? (matchesId pathId) = none →
      (updateApplication dparse false fileData pathId body true).status = 404 ∧
      (updateApplication dparse false fileData pathId body true).state = fileData) := by
  constructor
  · intro i hi
    refine ⟨?_, ?_, getF_spreadInto_id body pathId hid, ?_⟩ <;>
      simp [updateApplication, hv, readData, hi]
  · intro hn
    constructor <;> simp [updateApplication, hv, readData, hn]

/-- C1 witness: the amended Update behavior at a concrete state and
payload. -/
theorem update_replaces_record_witness :
    (updateApplication dparse0 false [rec1] 1 body2 true).status = 200 ∧
    (updateApplication dparse0 false [rec1] 1 body2 true).record
      = some (spreadInto [("id", jnum 1)] body2) ∧
    getF (spreadInto [("id", jnum 1)] body2) "id" = some (jnum 1) ∧
    (updateApplication dparse0 false [rec1] 1 body2 true).state
      = [rec1].set 0 (spreadInto [("id", jnum 1)] body2) :=
  (update_replaces_record dparse0 [rec1] 1 body2 (by decide) (by decide)).1 0 (by decide)

/-- C2 counterexample: with a record of id 100 already stored and the
creation timestamp equal to 100, a valid payload without an id field is
created with id 100, which collides with the stored record: the assigned
id is not unique. -/
theorem create_timestamp_id_collides :
    (validateApplication dparse0 body2).isValid = true ∧
    getF body2 "id" = none ∧
    (createApplication dparse0 false [rec100] 100 body2 true).status = 201 ∧
    getF ((createApplication dparse0 false [rec100] 100 body2 true).record.getD []) "id"
      = some (jnum 100) ∧
    getF rec100 "id" = some (jnum 100) := by
  decide

/-- C2 (amended): Create with a valid payload answers 201 and appends a
record built from the timestamp id and the payload; when the payload has
no id field the assigned id is exactly the creation timestamp, and it is
distinct from every stored id only under the extra hypothesis that the
timestamp collides with none of them — the code never checks uniqueness. -/
theorem create_appends_with_timestamp_id (dparse : String → Option Int)
    (fileData : List Obj) (now : Int) (body : Obj)
    (hv : (validateApplication dparse body).isValid = true)
    (hid : getF body "id" = none)
    (hfresh : ∀ a ∈ fileData, getF a "id" ≠ some (jnum now)) :
    (createApplication dparse false fileData now body true).status = 201 ∧
    (createApplication dparse false fileData now body true).record
      = some (spreadInto [("id", jnum now)] body) ∧
    getF (spreadInto [("id", jnum now)] body) "id" = some (jnum now) ∧
    (createApplication dparse false fileData now body true).state
      = fileData ++ [spreadInto [("id", jnum now)] body] ∧
    (∀ a ∈ fileData, getF a "id" ≠ getF (spreadInto [("id", jnum now)] body) "id") := by
  refine ⟨?_, ?_, getF_spreadInto_id body now hid, ?_, ?_⟩
  · simp [createApplication, hv]
  · simp [createApplication, hv]
  · simp [createApplication, hv, readData]
  · intro a ha
    rw [getF_spreadInto_id body now hid]
    exact hfresh a ha

/-- C2 witness: the amended Create behavior at a concrete state, payload
and timestamp. -/
theorem create_appends_with_timestamp_id_witness :
    (createApplication dparse0 false [rec1] 50 body2 true).status = 201 ∧
    (createApplication dparse0 false [rec1] 50 body2 true).record
      = some (spreadInto [("id", jnum 50)] body2) ∧
    getF (spreadInto [("id", jnum 50)] body2) "id" = some (jnum 50) ∧
    (createApplication dparse0 false [rec1] 50 body2 true).state
      = [rec1] ++ [spreadInto [("id", jnum 50)] body2] ∧
    getF rec1 "id" ≠ getF (spreadInto [("id", jnum 50)] body2) "id" := by
  have h := create_appends_with_timestamp_id dparse0 [rec1] 50 body2
    (by decide) (by decide) (by decide)
  exact ⟨h.1, h.2.1, h.2.2.1, h.2.2.2.1, h.2.2.2.2 rec1 (by simp)⟩

/-- C3 counterexample: with no sort parameter the List route returns the
records in persisted insertion order, which at this concrete two-record
state (older record first) is not ordered by date descending. -/
theorem list_default_is_insertion_order :
    (listApplications dparse0 false [recOld, recNew] none none).body = [recOld, recNew] ∧
    dKeyD dparse0 recOld < dKeyD dparse0 recNew ∧
    ¬ ([recOld, recNew].Pairwise (fun a b => dKeyD dparse0 b ≤ dKeyD dparse0 a)) := by
  refine ⟨by decide, by decide, ?_⟩
  intro h
  rcases List.pairwise_cons.mp h with ⟨hb, _⟩
  have hle := hb recNew (by simp)
  revert hle
  decide

/-- C3 (amended): the List route leaves the persisted file untouched and
narrows by status; it sorts only when a nonempty sort parameter is present
— with no sort parameter (or an empty one) the body keeps persisted
insertion order; when present, asc sorts by date ascending and any other
value sorts descending. -/
theorem list_sort_only_on_request (dparse : String → Option Int)
    (fileData : List Obj) (statusQ sortQ : Option String) :
    (listApplications dparse false fileData statusQ sortQ).state = fileData ∧
    (sortQ = none →
      (listApplications dparse false fileData statusQ sortQ).body
        = fileData.filter (statusPred statusQ)) ∧
    (sortQ = some "" →
      (listApplications dparse false fileData statusQ sortQ).body
        = fileData.filter (statusPred statusQ)) ∧
    (∀ s, sortQ = some s → s ≠ "" →
      (listApplications dparse false fileData statusQ sortQ).body.Perm
        (fileData.filter (statusPred statusQ))) ∧
    (∀ s, sortQ = some s → s ≠ "" → s = "asc" →
      (listApplications dparse false fileData statusQ sortQ).body.Pairwise
        (fun a b => dKeyD dparse a ≤ dKeyD dparse b)) ∧
    (∀ s, sortQ = some s → s ≠ "" → s ≠ "asc" →
      (listApplications dparse false fileData statusQ sortQ).body.Pairwise
        (fun a b => dKeyD dparse b ≤ dKeyD dparse a)) := by
  refine ⟨listApplications_state dparse false fileData statusQ sortQ, ?_, ?_, ?_, ?_, ?_⟩
  · intro h
    subst h
    simpa using listApplications_body dparse fileData statusQ none
  · intro h
    subst h
    simpa using listApplications_body dparse fileData statusQ (some "")
  · intro s h hne
    subst h
    have hb := listApplications_body dparse fileData statusQ (some s)
    simp only [bne_iff_ne, ne_eq, hne, not_false_eq_true, if_true] at hb
    rw [hb]
    exact perm_sortLe (dateCmp dparse s) (fileData.filter (statusPred statusQ))
  · intro s h hne hasc
    subst h
    subst hasc
    have hb := listApplications_body dparse fileData statusQ (some "asc")
    simp only [bne_iff_ne, ne_eq, hne, not_false_eq_true, if_true] at hb
    rw [hb]
    have hp := pairwise_sortLe (dateCmp dparse "asc") (dateCmp_trans dparse "asc")
      (dateCmp_total dparse "asc") (fileData.filter (statusPred statusQ))
    refine hp.imp ?_
    intro a b hab
    simpa [dateCmp] using hab
  · intro s h hne hnasc
    subst h
    have hb := listApplications_body dparse fileData statusQ (some s)
    simp only [bne_iff_ne, ne_eq, hne, not_false_eq_true, if_true] at hb
    rw [hb]
    have hp := pairwise_sortLe (dateCmp dparse s) (dateCmp_trans dparse s)
      (dateCmp_total dparse s) (fileData.filter (statusPred statusQ))
    refine hp.imp ?_
    intro a b hab
    have hsb : (s == "asc") = false := by
      simp [hnasc]
    simpa [dateCmp, hsb] using hab

/-- C3 witness: a concrete ascending-sort request, and a concrete
no-sort-parameter request keeping insertion order. -/
theorem list_sort_only_on_request_witness :
    (listApplications dparse0 false [recNew, recOld] (some "All") (some "asc")).state
      = [recNew, recOld] ∧
    (listApplications dparse0 false [recNew, recOld] (some "All") (some "asc")).body.Perm
      ([recNew, recOld].filter (statusPred (some "All"))) ∧
    (listApplications dparse0 false [recNew, recOld] (some "All") (some "asc")).body.Pairwise
      (fun a b => dKeyD dparse0 a ≤ dKeyD dparse0 b) ∧
    (listApplications dparse0 false [recNew, recOld] (some "All") none).body
      = [recNew, recOld].filter (statusPred (some "All")) := by
  have h := list_sort_only_on_request dparse0 [recNew, recOld] (some "All") (some "asc")
  have h2 := list_sort_only_on_request dparse0 [recNew, recOld] (some "All") none
  exact ⟨h.1, h.2.2.2.1 "asc" rfl (by decide), h.2.2.2.2.1 "asc" rfl (by decide) rfl,
    h2.2.1 rfl⟩

/-- C4 counterexample: the one-space company name is a nonempty string, the
role, date and status all satisfy the four conditions as the claim words
them, yet validation rejects the input with a company message — the code
tests the trimmed string, not mere nonemptiness. -/
theorem blank_company_rejected :
    getF dataBlankCompany "company" = some (jstr " ") ∧ (" " : String) ≠ "" ∧
    getF dataBlankCompany "role" = some (jstr "Developer") ∧ ("Developer" : String) ≠ "" ∧
    (dparse0 "2026-01-01").isSome = true ∧
    getF dataBlankCompany "status" = some (jstr "Applied") ∧ "Applied" ∈ validStatuses ∧
    (validateApplication dparse0 dataBlankCompany).isValid = false ∧
    "Company name is required" ∈ (validateApplication dparse0 dataBlankCompany).errors := by
  decide

/-- C4 (amended): validation checks exactly four conditions — company and
role must be strings nonempty after trimming whitespace, the date must be
truthy and parse, the status must be one of the four enumerated strings —
each failing condition contributes its own message (no short-circuit), the
error list holds nothing else, and the result is valid iff the list is
empty. -/
theorem validation_characterization (dparse : String → Option Int) (data : Obj) :
    ((validateApplication dparse data).isValid = true ↔
      (validateApplication dparse data).errors = []) ∧
    ("Company name is required" ∈ (validateApplication dparse data).errors ↔
      ¬ specCompanyOk data) ∧
    ("Role is required" ∈ (validateApplication dparse data).errors ↔
      ¬ specRoleOk data) ∧
    ("Valid date is required" ∈ (validateApplication dparse data).errors ↔
      ¬ specDateOk dparse data) ∧
    ("Status must be one of: Applied, Interview, Offer, Rejected"
        ∈ (validateApplication dparse data).errors ↔ ¬ specStatusOk data) ∧
    (∀ e ∈ (validateApplication dparse data).errors,
      e = "Company name is required" ∨ e = "Role is required" ∨
      e = "Valid date is required" ∨
      e = "Status must be one of: Applied, Interview, Offer, Rejected") := by
  have hc := companyInvalid_iff data
  have hr := roleInvalid_iff data
  have hd := dateInvalid_iff dparse data
  have hs := statusInvalid_iff data
  rw [validateApplication_isValid_eq, validateApplication_errors]
  cases hcb : companyInvalid data <;> cases hrb : roleInvalid data <;>
    cases hdb : dateInvalid dparse data <;> cases hsb : statusInvalid data <;>
      simp_all

/-- C4 witness: the characterization at a concrete rejected input. -/
theorem validation_characterization_witness :
    ((validateApplication dparse0 dataBlankCompany).isValid = true ↔
      (validateApplication dparse0 dataBlankCompany).errors = []) ∧
    ("Company name is required" ∈ (validateApplication dparse0 dataBlankCompany).errors ↔
      ¬ specCompanyOk dataBlankCompany) ∧
    ("Company name is required" = "Company name is required" ∨
      "Company name is required" = "Role is required" ∨
      "Company name is required" = "Valid date is required" ∨
      "Company name is required"
        = "Status must be one of: Applied, Interview, Offer, Rejected") := by
  have h := validation_characterization dparse0 dataBlankCompany
  exact ⟨h.1, h.2.1, h.2.2.2.2.2 "Company name is required" (by decide)⟩

/-- C5: creating with a missing or empty company answers 400, the error
list contains the company message, and the persisted collection is exactly
the one from before the request — no record is added and the file is not
rewritten, whatever the read and write outcomes would have been. -/
theorem create_missing_company_400 (dparse : String → Option Int) (readFails : Bool)
    (fileData : List Obj) (now : Int) (body : Obj) (writeOk : Bool)
    (h : getF body "company" = none ∨ getF body "company" = some (jstr "")) :
    (createApplication dparse readFails fileData now body writeOk).status = 400 ∧
    "Company name is required"
      ∈ (createApplication dparse readFails fileData now body writeOk).errors ∧
    (createApplication dparse readFails fileData now body writeOk).state = fileData := by
  have hcb : companyInvalid body = true := by
    unfold companyInvalid
    rcases h with h | h <;> simp [h, truthy, strNotString, trimEmpty]
  have herr : "Company name is required" ∈ (validateApplication dparse body).errors := by
    rw [validateApplication_errors, hcb]
    simp
  have hval : (validateApplication dparse body).isValid = false := by
    rw [validateApplication_isValid_eq]
    cases hemp : (validateApplication dparse body).errors.isEmpty with
    | false => rfl
    | true =>
        rw [List.isEmpty_iff] at hemp
        rw [hemp] at herr
        cases herr
  refine ⟨?_, ?_, ?_⟩ <;> simp [createApplication, hval, herr]

/-- C5 witness: a concrete create request without a company field. -/
theorem create_missing_company_400_witness :
    (createApplication dparse0 false [] 5 bodyNoCompany true).status = 400 ∧
    "Company name is required"
      ∈ (createApplication dparse0 false [] 5 bodyNoCompany true).errors ∧
    (createApplication dparse0 false [] 5 bodyNoCompany true).state = [] :=
  create_missing_company_400 dparse0 false [] 5 bodyNoCompany true (Or.inl (by decide))

/-- C6: updating an id that no stored record carries, with a payload that
passes validation, answers 404 and leaves the persisted collection exactly
as it was. -/
theorem update_absent_id_404 (dparse : String → Option Int) (fileData : List Obj)
    (pathId : Int) (body : Obj) (writeOk : Bool)
    (hv : (validateApplication dparse body).isValid = true)
    (habs : ∀ a ∈ fileData, getF a "id" ≠ some (jnum pathId)) :
    (updateApplication dparse false fileData pathId body writeOk).status = 404 ∧
    (updateApplication dparse false fileData pathId body writeOk).state = fileData := by
  have hnone : fileData.findIdx? (matchesId pathId) = none := by
    rw [List.findIdx?_eq_none_iff]
    intro x hx
    simp only [matchesId, decide_eq_false_iff_not]
    exact habs x hx
  constructor <;> simp [updateApplication, hv, readData, hnone]

/-- C6 witness: a concrete update of the absent id 99. -/
theorem update_absent_id_404_witness :
    (updateApplication dparse0 false [rec1] 99 body2 true).status = 404 ∧
    (updateApplication dparse0 false [rec1] 99 body2 true).state = [rec1] :=
  update_absent_id_404 dparse0 [rec1] 99 body2 true (by decide) (by decide)

/-- C7: the stats object carries the record count, the per-status counts,
and the offer rate — offers over total as a two-decimal percentage string,
the literal 0-percent string on an empty collection, and the 20.00-percent
string on five records with one offer. -/
theorem stats_spec :
    (∀ applications : List Obj,
      (statsOf applications).total = applications.length ∧
      (statsOf applications).applied
        = applications.countP (fun a => decide (getF a "status" = some (jstr "Applied"))) ∧
      (statsOf applications).interview
        = applications.countP (fun a => decide (getF a "status" = some (jstr "Interview"))) ∧
      (statsOf applications).offer
        = applications.countP (fun a => decide (getF a "status" = some (jstr "Offer"))) ∧
      (statsOf applications).rejected
        = applications.countP (fun a => decide (getF a "status" = some (jstr "Rejected"))) ∧
      (statsOf applications).successRate =
        (if applications.length = 0 then "0%"
         else toFixed2
           (100 * applications.countP (fun a => decide (getF a "status" = some (jstr "Offer"))))
           applications.length ++ "%")) ∧
    (statsOf []).total = 0 ∧ (statsOf []).successRate = "0%" ∧
    (statsOf fiveRecords).total = 5 ∧ (statsOf fiveRecords).offer = 1 ∧
    (statsOf fiveRecords).successRate = "20.00%" := by
  refine ⟨?_, by decide, by decide, by decide, by decide, by decide⟩
  intro applications
  refine ⟨rfl, ?_, ?_, ?_, ?_, ?_⟩
  · simp [statsOf, statusCount, List.countP_eq_length_filter]
  · simp [statsOf, statusCount, List.countP_eq_length_filter]
  · simp [statsOf, statusCount, List.countP_eq_length_filter]
  · simp [statsOf, statusCount, List.countP_eq_length_filter]
  · by_cases hl : applications.length = 0
    · simp [statsOf, hl]
    · simp [statsOf, hl, Nat.pos_of_ne_zero hl, statusCount, List.countP_eq_length_filter]

/-- C9 counterexample: at a concrete state whose file read fails, the List
route answers 200 with an empty array — not 500: readData swallows the
read error and substitutes the empty collection. -/
theorem read_failure_returns_200 :
    (listApplications dparse0 true [rec1] none none).status = 200 ∧
    (listApplications dparse0 true [rec1] none none).status ≠ 500 ∧
    (listApplications dparse0 true [rec1] none none).body = [] := by
  decide

/-- C9 (amended): when the data file read fails, readData returns the empty
collection and every read route succeeds over it — List answers 200 with an
empty array, Get answers 404, Stats answers 200 with all-zero counts and
the 0-percent rate; no read failure ever surfaces as 500. -/
theorem read_failure_degrades (dparse : String → Option Int) (fileData : List Obj)
    (statusQ sortQ : Option String) (pathId : Int) :
    (listApplications dparse true fileData statusQ sortQ).status = 200 ∧
    (listApplications dparse true fileData statusQ sortQ).body = [] ∧
    (getApplication true fileData pathId).status = 404 ∧
    (getStats true fileData).1 = 200 ∧
    (getStats true fileData).2 =
      { total := 0, applied := 0, interview := 0, offer := 0, rejected := 0,
        successRate := "0%" } := by
  refine ⟨?_, ?_, ?_, rfl, ?_⟩
  · unfold listApplications
    rfl
  · unfold listApplications readData
    cases statusQ <;> cases sortQ <;> simp [sortLe]
  · simp [getApplication, readData]
  · simp [getStats, readData, statsOf, statusCount, toFixed2]

/-- C10: both Create and Update spread the request body into the stored
record after the id, so every field the payload carries — the schema ones
and any extra — is stored verbatim, with no field whitelist. -/
theorem spread_stores_fields_verbatim (dparse : String → Option Int)
    (fileData : List Obj) (now pathId : Int) (body : Obj) (k : String) (v : JVal)
    (hv : (validateApplication dparse body).isValid = true)
    (hnd : (body.map Prod.fst).Nodup)
    (hkv : (k, v) ∈ body) :
    ((createApplication dparse false fileData now body true).record
        = some (spreadInto [("id", jnum now)] body) ∧
      getF (spreadInto [("id", jnum now)] body) k = some v ∧
      (createApplication dparse false fileData now body true).state
        = fileData ++ [spreadInto [("id", jnum now)] body]) ∧
    (∀ i, fileData.findIdx? (matchesId pathId) = some i →
      (updateApplication dparse false fileData pathId body true).record
        = some (spreadInto [("id", jnum pathId)] body) ∧
      getF (spreadInto [("id", jnum pathId)] body) k = some v ∧
      (updateApplication dparse false fileData pathId body true).state
        = fileData.set i (spreadInto [("id", jnum pathId)] body)) := by
  refine ⟨⟨?_, getF_spreadInto_mem body _ k v hnd hkv, ?_⟩, ?_⟩
  · simp [createApplication, hv]
  · simp [createApplication, hv, readData]
  · intro i hi
    refine ⟨?_, getF_spreadInto_mem body _ k v hnd hkv, ?_⟩ <;>
      simp [updateApplication, hv, readData, hi]

/-- C10 witness: a payload carrying the extra referral field is stored
verbatim by the concrete create and update requests. -/
theorem spread_stores_fields_verbatim_witness :
    ((createApplication dparse0 false [rec1] 50 bodyExtra true).record
        = some (spreadInto [("id", jnum 50)] bodyExtra) ∧
      getF (spreadInto [("id", jnum 50)] bodyExtra) "referral" = some (jstr "friend") ∧
      (createApplication dparse0 false [rec1] 50 bodyExtra true).state
        = [rec1] ++ [spreadInto [("id", jnum 50)] bodyExtra]) ∧
    ((updateApplication dparse0 false [rec1] 1 bodyExtra true).record
        = some (spreadInto [("id", jnum 1)] bodyExtra) ∧
      getF (spreadInto [("id", jnum 1)] bodyExtra) "referral" = some (jstr "friend") ∧
      (updateApplication dparse0 false [rec1] 1 bodyExtra true).state
        = [rec1].set 0 (spreadInto [("id", jnum 1)] bodyExtra)) := by
  have h := spread_stores_fields_verbatim dparse0 [rec1] 50 1 bodyExtra "referral"
    (jstr "friend") (by decide) (by decide) (by decide)
  exact ⟨h.1, h.2 0 (by decide)⟩

/-- The client view pipeline equals the sort of a single conjunctive
filter over the base collection. -/
theorem derivedView_eq (dparse : String → Option Int) (apps : List Obj)
    (fs term ord : String) :
    derivedView dparse apps fs term ord
      = sortLe (viewCmp dparse ord) (apps.filter (specViewPred fs term)) := by
  unfold derivedView
  by_cases h1 : fs = "All" <;> by_cases h2 : term = ""
  · subst h1
    subst h2
    simp only [bne_self_eq_false, Bool.false_eq_true, if_false]
    congr 1
    exact (List.filter_eq_self.mpr (fun a _ => rfl)).symm
  · subst h1
    have ht : (term != "") = true := by simp [h2]
    have htb : (term == "") = false := by simp [h2]
    simp only [bne_self_eq_false, Bool.false_eq_true, if_false, ht, if_true]
    congr 1
    refine List.filter_congr ?_
    intro a _
    simp [specViewPred, htb]
  · subst h2
    have hf : (fs != "All") = true := by simp [h1]
    have hfb : (fs == "All") = false := by simp [h1]
    simp only [bne_self_eq_false, Bool.false_eq_true, if_false, hf, if_true]
    congr 1
    refine List.filter_congr ?_
    intro a _
    simp [specViewPred, hfb]
  · have hf : (fs != "All") = true := by simp [h1]
    have ht : (term != "") = true := by simp [h2]
    have hfb : (fs == "All") = false := by simp [h1]
    have htb : (term == "") = false := by simp [h2]
    simp only [hf, ht, if_true]
    rw [List.filter_filter]
    congr 1
    refine List.filter_congr ?_
    intro a _
    simp [specViewPred, hfb, htb, Bool.and_comm]

/-- C8: the client derived view is a permutation of the base collection
narrowed by the status filter and the case-insensitive company-or-role
search, and it is ordered by date descending when the toggle is desc and
ascending otherwise. -/
theorem derivedView_spec (dparse : String → Option Int) (apps : List Obj)
    (fs term ord : String) :
    (derivedView dparse apps fs term ord).Perm (apps.filter (specViewPred fs term)) ∧
    (ord = "desc" →
      (derivedView dparse apps fs term ord).Pairwise
        (fun a b => dKeyD dparse b ≤ dKeyD dparse a)) ∧
    (ord ≠ "desc" →
      (derivedView dparse apps fs term ord).Pairwise
        (fun a b => dKeyD dparse a ≤ dKeyD dparse b)) := by
  refine ⟨?_, ?_, ?_⟩
  · rw [derivedView_eq]
    exact perm_sortLe _ _
  · intro h
    rw [derivedView_eq]
    have hp := pairwise_sortLe (viewCmp dparse ord) (viewCmp_trans dparse ord)
      (viewCmp_total dparse ord) (apps.filter (specViewPred fs term))
    refine hp.imp ?_
    intro a b hab
    have hb : (ord == "desc") = true := by simp [h]
    simpa [viewCmp, hb] using hab
  · intro h
    rw [derivedView_eq]
    have hp := pairwise_sortLe (viewCmp dparse ord) (viewCmp_trans dparse ord)
      (viewCmp_total dparse ord) (apps.filter (specViewPred fs term))
    refine hp.imp ?_
    intro a b hab
    have hb : (ord == "desc") = false := by simp [h]
    simpa [viewCmp, hb] using hab

/-- C8 witness: the view derivation at a concrete collection with the
default controls. -/
theorem derivedView_spec_witness :
    (derivedView dparse0 [recOld, recNew] "All" "" "desc").Perm
      ([recOld, recNew].filter (specViewPred "All" "")) ∧
    (derivedView dparse0 [recOld, recNew] "All" "" "desc").Pairwise
      (fun a b => dKeyD dparse0 b ≤ dKeyD dparse0 a) :=
  ⟨(derivedView_spec dparse0 [recOld, recNew] "All" "" "desc").1,
   (derivedView_spec dparse0 [recOld, recNew] "All" "" "desc").2.1 rfl⟩
